import Mathlib

/-!
# Request tracing (`main.go`): embedding and verified properties

The program issues one GET request with an `httptrace.ClientTrace` attached.
Each hook of the trace reads the clock, logs one line and writes one or more
fields of a `Debug` record; `main` serialises the record with
`json.MarshalIndent(debug, "", "    ")` and logs the result.

The embedding is state passing.  A `World` holds the record behind the
pointer `d`, the log lines submitted so far and the clock: the values that
successive evaluations of `time.Now().UTC().String()` produce, with a counter
of the evaluations made.  Hooks and `main` are written in the state monad
`Run` over `World`, statement by statement after the Go source.

What lies outside the repository is kept to its interface:
* an `error` value is the pair of what `Error()` returns and what
  `encoding/json` makes of its dynamic value;
* the textual form of a `net.IP` (`MarshalText`) is the parameter `ipText`;
* `encoding/json` is modelled for the types `Debug` is built from: struct
  fields in declaration order under their tags, strings as escaped literals,
  a nil slice as `null`, a nil interface as `null`, and the indentation of
  `json.Indent`.
-/

namespace HttpReqTracing

/-! ## JSON values and their indented rendering (`encoding/json`) -/

/-- A JSON document. A number is kept as its literal text. -/
inductive JSON where
  | null
  | bool (b : Bool)
  | num (lit : String)
  | str (s : String)
  | arr (items : List JSON)
  | obj (members : List (String × JSON))

/-- Whether a JSON value is an array. -/
def JSON.isArr : JSON → Bool
  | .arr _ => true
  | _ => false

/-- Whether a JSON value is a string. -/
def JSON.isStr : JSON → Bool
  | .str _ => true
  | _ => false

/-- Whether a JSON value is an object. -/
def JSON.isObj : JSON → Bool
  | .obj _ => true
  | _ => false

/-- The keys of an object, in order; no keys for any other value. -/
def JSON.keys : JSON → List String
  | .obj ms => ms.map Prod.fst
  | _ => []

/-- Lookup in an association list of members: the first member under the key. -/
def lookupMember (k : String) : List (String × JSON) → Option JSON
  | [] => none
  | (k', v) :: ms => if k' = k then some v else lookupMember k ms

/-- The member of an object under a key. -/
def JSON.member (k : String) : JSON → Option JSON
  | .obj ms => lookupMember k ms
  | _ => none

/-- Lower-case hexadecimal digit: the character at index `n` of the constant
`hex` of `encoding/json`. -/
def hexDigit (n : Nat) : Char :=
  "0123456789abcdef".toList.getD n '0'

/-- The escape of one character inside a JSON string literal, as `encoding/json`
writes it with HTML escaping on (the setting of `Marshal` and `MarshalIndent`):
the quote and the backslash get a backslash, backspace, form feed, newline,
carriage return and tab their short forms, the other control characters and
`<`, `>`, `&` the six-character form with `u00` and two hexadecimal digits, U+2028 and U+2029
the like form with their four digits; every other character stands for itself. -/
def escapeChar (c : Char) : List Char :=
  let n := c.toNat
  let bs := Char.ofNat 92
  if n = 34 ∨ n = 92 then [bs, c]
  else if n = 8 then [bs, 'b']
  else if n = 12 then [bs, 'f']
  else if n = 10 then [bs, 'n']
  else if n = 13 then [bs, 'r']
  else if n = 9 then [bs, 't']
  else if n < 32 ∨ n = 60 ∨ n = 62 ∨ n = 38 then [bs, 'u', '0', '0', hexDigit (n / 16), hexDigit (n % 16)]
  else if n = 8232 then [bs, 'u', '2', '0', '2', '8']
  else if n = 8233 then [bs, 'u', '2', '0', '2', '9']
  else [c]

/-- A string as a JSON string literal: quoted, each character escaped. -/
def quote (s : String) : String :=
  String.mk (Char.ofNat 34 :: ((s.toList.map escapeChar).flatten ++ [Char.ofNat 34]))

/-- The indent string repeated `n` times. -/
def indentOf (indent : String) : Nat → String
  | 0 => ""
  | n + 1 => indentOf indent n ++ indent

/-- The line break of `json.Indent`: a newline, the prefix, and the indent once
per nesting level. -/
def newline (pfx indent : String) (depth : Nat) : String :=
  "\n" ++ pfx ++ indentOf indent depth

mutual
/-- The text of a JSON value as `json.Indent` lays it out at nesting level
`depth`: each element or member on a line of its own one level deeper, a comma
after all but the last, a space after the colon, the closing bracket back at
`depth`; an empty array or object stays `[]` or `{}`. -/
def render (pfx indent : String) (depth : Nat) : JSON → String
  | .null => "null"
  | .bool b => if b then "true" else "false"
  | .num lit => lit
  | .str s => quote s
  | .arr [] => "[]"
  | .arr (x :: xs) =>
      "[" ++ newline pfx indent (depth + 1) ++ render pfx indent (depth + 1) x
        ++ renderItems pfx indent depth xs ++ newline pfx indent depth ++ "]"
  | .obj [] => "\x7b\x7d"
  | .obj ((k, v) :: ms) =>
      "\x7b" ++ newline pfx indent (depth + 1) ++ quote k ++ ": " ++ render pfx indent (depth + 1) v
        ++ renderMembers pfx indent depth ms ++ newline pfx indent depth ++ "\x7d"
/-- The elements of an array after the first, each behind a comma. -/
def renderItems (pfx indent : String) (depth : Nat) : List JSON → String
  | [] => ""
  | x :: xs =>
      "," ++ newline pfx indent (depth + 1) ++ render pfx indent (depth + 1) x
        ++ renderItems pfx indent depth xs
/-- The members of an object after the first, each behind a comma. -/
def renderMembers (pfx indent : String) (depth : Nat) : List (String × JSON) → String
  | [] => ""
  | (k, v) :: ms =>
      "," ++ newline pfx indent (depth + 1) ++ quote k ++ ": " ++ render pfx indent (depth + 1) v
        ++ renderMembers pfx indent depth ms
end

/-! ## Values from outside the repository -/

/-- A Go `error` value, seen through its interface: the text `Error()` returns
and the encoding `encoding/json` gives its dynamic value (a failure when the
dynamic type cannot be encoded). -/
structure GoError where
  Error : String
  encoding : Except String JSON

/-- The type `net.IP`: a slice of bytes. -/
abbrev NetIP := List Nat

/-- The type `net.IPAddr`. -/
structure IPAddr where
  IP : NetIP
  Zone : String

/-! ## The record (`type Debug struct`, main.go 38-62) -/

/-- The anonymous struct of the field `DNS`. A nil slice and a nil interface
are `none`. -/
structure DNSRecord where
  Start : String := ""
  End : String := ""
  Host : String := ""
  Address : Option (List IPAddr) := none
  Error : Option GoError := none

/-- The anonymous struct of the field `Dial`. -/
structure DialRecord where
  Start : String := ""
  End : String := ""

/-- The anonymous struct with the one field `Time`, the type of `Connection`,
`WroteAllRequestHeaders`, `WroteAllRequest` and `FirstReceivedResponseByte`. -/
structure TimeRecord where
  Time : String := ""

/-- The struct `Debug`. The defaults are Go's zero values, so `{}` is `Debug{}`. -/
structure Debug where
  DNS : DNSRecord := {}
  Dial : DialRecord := {}
  Connection : TimeRecord := {}
  WroteAllRequestHeaders : TimeRecord := {}
  WroteAllRequest : TimeRecord := {}
  FirstReceivedResponseByte : TimeRecord := {}

/-! ## Encoding of the record -/

/-- Encoding of a `net.IPAddr`: a struct without tags, so its members are named
after the fields; `IP` is a text marshaler and encodes as the string of its
text. -/
def IPAddr.toJSON (ipText : NetIP → Except String String) (a : IPAddr) : Except String JSON := do
  let ip ← ipText a.IP
  pure (.obj [("IP", .str ip), ("Zone", .str a.Zone)])

/-- Encoding of the elements of a slice of `net.IPAddr`, in order; the first
failure is the failure of the whole. -/
def encodeAddrs (ipText : NetIP → Except String String) : List IPAddr → Except String (List JSON)
  | [] => pure []
  | a :: as => do
      let j ← a.toJSON ipText
      let js ← encodeAddrs ipText as
      pure (j :: js)

/-- Encoding of the field `Address []net.IPAddr`: `null` for the nil slice, else
the array of the encoded elements. -/
def addressJSON (ipText : NetIP → Except String String) : Option (List IPAddr) → Except String JSON
  | none => pure .null
  | some as => do
      let items ← encodeAddrs ipText as
      pure (.arr items)

/-- Encoding of the field `Error error`: `null` for the nil interface, else the
encoding of the dynamic value. -/
def errorJSON : Option GoError → Except String JSON
  | none => pure .null
  | some e => e.encoding

/-- Encoding of the struct of `DNS`, members under the tags `start`, `end`,
`host`, `address`, `error`. -/
def DNSRecord.toJSON (ipText : NetIP → Except String String) (r : DNSRecord) : Except String JSON := do
  let address ← addressJSON ipText r.Address
  let error ← errorJSON r.Error
  pure (.obj [("start", .str r.Start), ("end", .str r.End), ("host", .str r.Host),
              ("address", address), ("error", error)])

/-- Encoding of the struct of `Dial`, members under the tags `start`, `end`. -/
def DialRecord.toJSON (r : DialRecord) : JSON :=
  .obj [("start", .str r.Start), ("end", .str r.End)]

/-- Encoding of a struct with the one field `Time`, under the tag `time`. -/
def TimeRecord.toJSON (r : TimeRecord) : JSON :=
  .obj [("time", .str r.Time)]

/-- Encoding of `Debug`: one member per field, in declaration order, under the
tags `dns`, `dial`, `connection`, `wrote_all_request_header`,
`wrote_all_request`, `first_received_response_byte`. -/
def Debug.toJSON (ipText : NetIP → Except String String) (d : Debug) : Except String JSON := do
  let dns ← d.DNS.toJSON ipText
  pure (.obj [("dns", dns), ("dial", d.Dial.toJSON), ("connection", d.Connection.toJSON),
              ("wrote_all_request_header", d.WroteAllRequestHeaders.toJSON),
              ("wrote_all_request", d.WroteAllRequest.toJSON),
              ("first_received_response_byte", d.FirstReceivedResponseByte.toJSON)])

/-- The call `json.MarshalIndent(debug, pfx, indent)`: the encoding, laid out
from nesting level 0, or the error of the encoding. -/
def MarshalIndent (ipText : NetIP → Except String String) (d : Debug) (pfx indent : String) :
    Except String String := do
  let j ← d.toJSON ipText
  pure (render pfx indent 0 j)

/-- The conversion `string(dataDebug)` of what `json.MarshalIndent` returned:
the bytes on success, the empty string for the nil slice returned with an
error. -/
def bytesToString : Except String String → String
  | .ok b => b
  | .error _ => ""

/-! ## Logging (`logrus`) -/

/-- The log levels the program uses. -/
inductive Level where
  | Info
  | Fatal
  deriving DecidableEq

/-- An argument of a logging call: a string or an error value. -/
inductive Arg where
  | str (s : String)
  | err (e : GoError)

/-- One logging call as the logger receives it: the level, the fields of the
entry it was made on, and the arguments in order. -/
structure LogEntry where
  level : Level
  Data : List (String × String)
  args : List Arg

/-- A `*logrus.Entry`: the fields it carries. The `*logrus.Logger` itself logs
as the entry without fields. -/
structure Entry where
  Data : List (String × String)

/-- The logger `logrus.New()`, as the entry without fields. -/
def logrusNew : Entry := ⟨[]⟩

/-- The call `log.WithField(key, value)`: the entry with one more field. -/
def Entry.WithField (log : Entry) (key value : String) : Entry :=
  ⟨log.Data ++ [(key, value)]⟩

/-! ## The world and the effects of the program -/

/-- The state the program acts on: `clock k` is the string the `k`-th
evaluation of `time.Now().UTC().String()` yields and `ticks` counts the
evaluations made; `log` holds the logging calls made, oldest first; `d` is the
record behind the pointer `d` of `trace`. -/
structure World where
  clock : Nat → String
  ticks : Nat
  log : List LogEntry
  d : Debug

/-- Computations of the program: state passing over the world. -/
abbrev Run := StateM World

/-- The expression `time.Now().UTC().String()`: one reading of the clock. -/
def timeNowUTCString : Run String :=
  fun w => (w.clock w.ticks, { w with ticks := w.ticks + 1 })

/-- The call `log.Info(args...)` on an entry: one logging call at level Info. -/
def Entry.Info (log : Entry) (args : List Arg) : Run Unit :=
  modify fun w => { w with log := w.log ++ [⟨Level.Info, log.Data, args⟩] }

/-- Process exit status. -/
abbrev ExitCode := Nat

/-- The call `log.Fatal(args...)`: one logging call at level Fatal, then the
process exits with status 1; nothing after it runs. -/
def Entry.Fatal (log : Entry) (args : List Arg) : Run ExitCode := do
  modify fun w => { w with log := w.log ++ [⟨Level.Fatal, log.Data, args⟩] }
  pure 1

/-! ## The transport policy (`client`, `transport`, `tlsConfig`, main.go 64-81) -/

/-- The fields of `tls.Config` in question; a field a literal leaves out has
Go's zero value. -/
structure TlsConfig where
  InsecureSkipVerify : Bool := false

/-- The fields of `http.Transport` in question. -/
structure HttpTransport where
  DisableKeepAlives : Bool := false
  TLSClientConfig : Option TlsConfig := none

/-- The fields of `http.Client` in question; `Timeout` is a duration in
nanoseconds, zero meaning no timeout. -/
structure HttpClient where
  Transport : Option HttpTransport := none
  Timeout : Int := 0

/-- The function `tlsConfig`. -/
def tlsConfig : TlsConfig :=
  { InsecureSkipVerify := true }

/-- The function `transport`. -/
def transport : HttpTransport :=
  { DisableKeepAlives := true, TLSClientConfig := some tlsConfig }

/-- The function `client`. -/
def client : HttpClient :=
  { Transport := some transport }

/-! ## The trace (`trace`, main.go 83-133) -/

/-- The type `httptrace.DNSStartInfo`. -/
structure DNSStartInfo where
  Host : String

/-- The type `httptrace.DNSDoneInfo`. -/
structure DNSDoneInfo where
  Addrs : Option (List IPAddr)
  Err : Option GoError
  Coalesced : Bool

/-- The type `httptrace.GotConnInfo`, without the connection itself. -/
structure GotConnInfo where
  Reused : Bool
  WasIdle : Bool
  IdleTime : Int

/-- The type `httptrace.WroteRequestInfo`. -/
structure WroteRequestInfo where
  Err : Option GoError

/-- The hooks of `httptrace.ClientTrace` that `trace` sets. -/
structure ClientTrace where
  DNSStart : DNSStartInfo → Run Unit
  DNSDone : DNSDoneInfo → Run Unit
  ConnectStart : String → String → Run Unit
  ConnectDone : String → String → Option GoError → Run Unit
  GotConn : GotConnInfo → Run Unit
  WroteHeaders : Run Unit
  WroteRequest : WroteRequestInfo → Run Unit
  GotFirstResponseByte : Run Unit

/-- The function `trace`: the hooks, each closing over the entry `log` and the
record `d`, and the fresh record `Debug{}` that `d` points to. The hooks act on
the record of the world. -/
def trace (log : Entry) : ClientTrace × Debug :=
  let d : Debug := {}
  let t : ClientTrace := {
    DNSStart := fun info => do
      let t ← timeNowUTCString
      log.Info [.str t, .str "dns start"]
      modify fun w => { w with d.DNS.Start := t }
      modify fun w => { w with d.DNS.Host := info.Host }
    DNSDone := fun info => do
      let t ← timeNowUTCString
      log.Info [.str t, .str "dns end"]
      modify fun w => { w with d.DNS.End := t }
      modify fun w => { w with d.DNS.Address := info.Addrs }
      modify fun w => { w with d.DNS.Error := info.Err }
    ConnectStart := fun _network _addr => do
      let t ← timeNowUTCString
      log.Info [.str t, .str "dial start"]
      modify fun w => { w with d.Dial.Start := t }
    ConnectDone := fun _network _addr _err => do
      let t ← timeNowUTCString
      log.Info [.str t, .str "dial end"]
      modify fun w => { w with d.Dial.End := t }
    GotConn := fun _connInfo => do
      let t ← timeNowUTCString
      log.Info [.str t, .str "conn time"]
      modify fun w => { w with d.Connection.Time := t }
    WroteHeaders := do
      let t ← timeNowUTCString
      log.Info [.str t, .str "wrote all request headers"]
      modify fun w => { w with d.WroteAllRequestHeaders.Time := t }
    WroteRequest := fun _wr => do
      let t ← timeNowUTCString
      log.Info [.str t, .str "wrote all request"]
      modify fun w => { w with d.WroteAllRequest.Time := t }
    GotFirstResponseByte := do
      let t ← timeNowUTCString
      log.Info [.str t, .str "first received response byte"]
      modify fun w => { w with d.FirstReceivedResponseByte.Time := t }
  }
  (t, d)

/-- One invocation of a hook by the HTTP client, with its arguments. -/
inductive Event where
  | DNSStart (info : DNSStartInfo)
  | DNSDone (info : DNSDoneInfo)
  | ConnectStart (network addr : String)
  | ConnectDone (network addr : String) (err : Option GoError)
  | GotConn (connInfo : GotConnInfo)
  | WroteHeaders
  | WroteRequest (wr : WroteRequestInfo)
  | GotFirstResponseByte

/-- The HTTP client invoking a hook of the trace. -/
def ClientTrace.fire (t : ClientTrace) : Event → Run Unit
  | .DNSStart info => t.DNSStart info
  | .DNSDone info => t.DNSDone info
  | .ConnectStart network addr => t.ConnectStart network addr
  | .ConnectDone network addr err => t.ConnectDone network addr err
  | .GotConn connInfo => t.GotConn connInfo
  | .WroteHeaders => t.WroteHeaders
  | .WroteRequest wr => t.WroteRequest wr
  | .GotFirstResponseByte => t.GotFirstResponseByte

/-- The HTTP client invoking hooks one after the other. -/
def ClientTrace.fireAll (t : ClientTrace) : List Event → Run Unit
  | [] => pure ()
  | e :: es => do
      t.fire e
      t.fireAll es

/-! ## The run (`main`, main.go 14-36) -/

/-- What the surroundings decide in a run of `main`: the error `http.NewRequest`
returns (`none` for nil), the hooks the client invokes while `client.Do` runs,
and the error `client.Do` returns. -/
structure Env where
  newRequestErr : Option GoError
  doEvents : List Event
  doErr : Option GoError

/-- The call `client.Do(req)` on a request whose context carries the trace: the
client invokes the hooks, then returns its error. -/
def clientDo (env : Env) (t : ClientTrace) : Run (Option GoError) := do
  t.fireAll env.doEvents
  pure env.doErr

/-- The function `main`. The record `trace` allocates becomes the record of the
world; the result is the exit status. -/
def main (ipText : NetIP → Except String String) (env : Env) : Run ExitCode := do
  let log := logrusNew
  let (trace, debug) := trace (log.WithField "unit" "tracing")
  modify fun w => { w with d := debug }
  match env.newRequestErr with
  | some err => log.Fatal [.err err]
  | none =>
    match ← clientDo env trace with
    | some err => log.Fatal [.err err]
    | none =>
      let dataDebug := MarshalIndent ipText (← get).d "" "    "
      log.Info [.str (bytesToString dataDebug)]
      pure 0

/-- The world at process start: nothing read from the clock, nothing logged. -/
def World.start (clock : Nat → String) : World :=
  { clock := clock, ticks := 0, log := [], d := {} }

/-! ## Notions the properties are stated with -/

/-- The world a computation leaves behind. -/
def worldAfter {α : Type} (m : Run α) (w : World) : World :=
  (m.run w).2

/-- The phases of the request, one per sub-record of `Debug`. -/
inductive Phase where
  | DNS
  | Dial
  | Connection
  | WroteAllRequestHeaders
  | WroteAllRequest
  | FirstReceivedResponseByte
  deriving DecidableEq

/-- The phase whose sub-record the hook of an invocation belongs to. -/
def Event.phase : Event → Phase
  | .DNSStart _ => .DNS
  | .DNSDone _ => .DNS
  | .ConnectStart _ _ => .Dial
  | .ConnectDone _ _ _ => .Dial
  | .GotConn _ => .Connection
  | .WroteHeaders => .WroteAllRequestHeaders
  | .WroteRequest _ => .WroteAllRequest
  | .GotFirstResponseByte => .FirstReceivedResponseByte

/-- All fields of the sub-record of a phase are empty: the empty string, the
nil slice, the nil error. -/
def Phase.unset : Phase → Debug → Prop
  | .DNS, d => d.DNS.Start = "" ∧ d.DNS.End = "" ∧ d.DNS.Host = "" ∧ d.DNS.Address = none
      ∧ d.DNS.Error = none
  | .Dial, d => d.Dial.Start = "" ∧ d.Dial.End = ""
  | .Connection, d => d.Connection.Time = ""
  | .WroteAllRequestHeaders, d => d.WroteAllRequestHeaders.Time = ""
  | .WroteAllRequest, d => d.WroteAllRequest.Time = ""
  | .FirstReceivedResponseByte, d => d.FirstReceivedResponseByte.Time = ""

/-- The hook an invocation is of, as a number from 0 to 7 in the order of the
literal in `trace`. -/
def Event.hook : Event → Nat
  | .DNSStart _ => 0
  | .DNSDone _ => 1
  | .ConnectStart _ _ => 2
  | .ConnectDone _ _ _ => 3
  | .GotConn _ => 4
  | .WroteHeaders => 5
  | .WroteRequest _ => 6
  | .GotFirstResponseByte => 7

/-- The phase label the specification gives for the log line of each hook. -/
def Event.specLabel : Event → String
  | .DNSStart _ => "dns start"
  | .DNSDone _ => "dns end"
  | .ConnectStart _ _ => "dial start"
  | .ConnectDone _ _ _ => "dial end"
  | .GotConn _ => "conn time"
  | .WroteHeaders => "wrote all request headers"
  | .WroteRequest _ => "wrote all request"
  | .GotFirstResponseByte => "first received response byte"

/-- The timestamp field of the record that the specification assigns to each
hook: start and end of `dns` and `dial`, and the `time` of the four others. -/
def Event.specStamp : Event → Debug → String
  | .DNSStart _, d => d.DNS.Start
  | .DNSDone _, d => d.DNS.End
  | .ConnectStart _ _, d => d.Dial.Start
  | .ConnectDone _ _ _, d => d.Dial.End
  | .GotConn _, d => d.Connection.Time
  | .WroteHeaders, d => d.WroteAllRequestHeaders.Time
  | .WroteRequest _, d => d.WroteAllRequest.Time
  | .GotFirstResponseByte, d => d.FirstReceivedResponseByte.Time

/-- The messages `main` logged through the logger itself at level Info: the
reports emitted. The hooks log through an entry that carries a field. -/
def reports : List LogEntry → List (List Arg)
  | [] => []
  | e :: es => if e.level = Level.Info ∧ e.Data = [] then e.args :: reports es else reports es

/-- The arguments of the logging calls made at level Fatal. -/
def fatals : List LogEntry → List (List Arg)
  | [] => []
  | e :: es => if e.level = Level.Fatal then e.args :: fatals es else fatals es

/-- What the hook of an invocation writes into the record at reading `t`. -/
def Event.write : Event → String → Debug → Debug
  | .DNSStart info, t, d => { d with DNS := { d.DNS with Start := t, Host := info.Host } }
  | .DNSDone info, t, d => { d with DNS := { d.DNS with End := t, Address := info.Addrs, Error := info.Err } }
  | .ConnectStart _ _, t, d => { d with Dial := { d.Dial with Start := t } }
  | .ConnectDone _ _ _, t, d => { d with Dial := { d.Dial with End := t } }
  | .GotConn _, t, d => { d with Connection := { Time := t } }
  | .WroteHeaders, t, d => { d with WroteAllRequestHeaders := { Time := t } }
  | .WroteRequest _, t, d => { d with WroteAllRequest := { Time := t } }
  | .GotFirstResponseByte, t, d => { d with FirstReceivedResponseByte := { Time := t } }

/-! ## Timestamps as instants, and sample runs -/

/-- The value of a decimal digit. -/
def digitValue (c : Char) : Option Nat :=
  if 48 ≤ c.toNat ∧ c.toNat ≤ 57 then some (c.toNat - 48) else none

/-- The number a list of decimal digits writes, most significant first. -/
def decimalValue (cs : List Char) : Option Nat :=
  cs.foldl (fun acc c => do
    let a ← acc
    let v ← digitValue c
    pure (10 * a + v)) (some 0)

/-- Days from 1970-01-01 to a date of the proleptic Gregorian calendar, for
dates from 1970 on. -/
def daysFromCivil (y m d : Nat) : Nat :=
  let y' := if m ≤ 2 then y - 1 else y
  let era := y' / 400
  let yoe := y' % 400
  let mp := if m ≤ 2 then m + 9 else m - 3
  let doy := (153 * mp + 2) / 5 + d - 1
  let doe := yoe * 365 + yoe / 4 - yoe / 100 + doy
  era * 146097 + doe - 719468

/-- The fraction of a second written by one to nine digits, in nanoseconds. -/
def fractionNanos (cs : List Char) : Option Nat :=
  if cs.length = 0 ∨ 9 < cs.length then none
  else (decimalValue cs).map (· * 10 ^ (9 - cs.length))

/-- The instant a timestamp denotes, in nanoseconds since 1970-01-01 00:00:00
UTC, for a string in the form `time.Time.String` gives a time in UTC with a
four-digit year: `2006-01-02 15:04:05.999999999 +0000 UTC`, the fraction
without trailing zeros and absent when zero. -/
def instantOfUTC (s : String) : Option Nat :=
  match s.toList with
  | y1 :: y2 :: y3 :: y4 :: c1 :: m1 :: m2 :: c2 :: d1 :: d2 :: c3 :: h1 :: h2 :: c4 :: n1 :: n2
      :: c5 :: s1 :: s2 :: rest =>
    if [c1, c2, c3, c4, c5] = "-- ::".toList then do
      let y ← decimalValue [y1, y2, y3, y4]
      let m ← decimalValue [m1, m2]
      let d ← decimalValue [d1, d2]
      let h ← decimalValue [h1, h2]
      let n ← decimalValue [n1, n2]
      let sec ← decimalValue [s1, s2]
      let frac ←
        if rest = " +0000 UTC".toList then some 0
        else if rest.take 1 = ".".toList ∧ rest.drop (rest.length - 10) = " +0000 UTC".toList then
          fractionNanos ((rest.drop 1).take (rest.length - 11))
        else none
      pure ((((daysFromCivil y m d * 24 + h) * 60 + n) * 60 + sec) * 1000000000 + frac)
    else none
  | _ => none

/-- Eight clock readings of a sample run, as `time.Now().UTC().String()` writes
them; every later reading is the empty string. -/
def sampleClock (k : Nat) : String :=
  ["2019-03-14 09:26:53.589793238 +0000 UTC", "2019-03-14 09:26:53.6 +0000 UTC",
   "2019-03-14 09:26:53.600012 +0000 UTC", "2019-03-14 09:26:53.71 +0000 UTC",
   "2019-03-14 09:26:53.710001 +0000 UTC", "2019-03-14 09:26:53.7101 +0000 UTC",
   "2019-03-14 09:26:53.7101 +0000 UTC", "2019-03-14 09:26:54 +0000 UTC"].getD k ""

/-- The instants of the sample readings, in nanoseconds since the epoch. -/
def sampleInstants (k : Nat) : Nat :=
  [1552555613589793238, 1552555613600000000, 1552555613600012000, 1552555613710000000,
   1552555613710001000, 1552555613710100000, 1552555613710100000, 1552555614000000000].getD k 0

/-- A text for every address, for runs in which the text of no address
matters. -/
def sampleIpText : NetIP → Except String String :=
  fun _ => .ok "93.184.216.34"

/-- A successful run against a literal address: no lookup, so the DNS hooks
never fire; the six other hooks fire in turn. -/
def literalAddressRun : Env :=
  { newRequestErr := none
    doEvents := [.ConnectStart "tcp" "93.184.216.34:80", .ConnectDone "tcp" "93.184.216.34:80" none,
                 .GotConn ⟨false, false, 0⟩, .WroteHeaders, .WroteRequest ⟨none⟩,
                 .GotFirstResponseByte]
    doErr := none }

/-! ## The effect of each hook -/

/-- The hook `DNSStart`, run from a world. -/
theorem DNSStart_run (log : Entry) (info : DNSStartInfo) (w : World) :
    ((trace log).1.DNSStart info).run w =
      ((), { w with
              ticks := w.ticks + 1
              log := w.log ++ [⟨Level.Info, log.Data, [.str (w.clock w.ticks), .str "dns start"]⟩]
              d := { w.d with DNS := { w.d.DNS with Start := w.clock w.ticks, Host := info.Host } } }) :=
  rfl

/-- The hook `DNSDone`, run from a world. -/
theorem DNSDone_run (log : Entry) (info : DNSDoneInfo) (w : World) :
    ((trace log).1.DNSDone info).run w =
      ((), { w with
              ticks := w.ticks + 1
              log := w.log ++ [⟨Level.Info, log.Data, [.str (w.clock w.ticks), .str "dns end"]⟩]
              d := { w.d with DNS := { w.d.DNS with End := w.clock w.ticks, Address := info.Addrs,
                                                    Error := info.Err } } }) :=
  rfl

/-- The hook `ConnectStart`, run from a world. -/
theorem ConnectStart_run (log : Entry) (network addr : String) (w : World) :
    ((trace log).1.ConnectStart network addr).run w =
      ((), { w with
              ticks := w.ticks + 1
              log := w.log ++ [⟨Level.Info, log.Data, [.str (w.clock w.ticks), .str "dial start"]⟩]
              d := { w.d with Dial := { w.d.Dial with Start := w.clock w.ticks } } }) :=
  rfl

/-- The hook `ConnectDone`, run from a world. -/
theorem ConnectDone_run (log : Entry) (network addr : String) (err : Option GoError) (w : World) :
    ((trace log).1.ConnectDone network addr err).run w =
      ((), { w with
              ticks := w.ticks + 1
              log := w.log ++ [⟨Level.Info, log.Data, [.str (w.clock w.ticks), .str "dial end"]⟩]
              d := { w.d with Dial := { w.d.Dial with End := w.clock w.ticks } } }) :=
  rfl

/-- The hook `GotConn`, run from a world. -/
theorem GotConn_run (log : Entry) (connInfo : GotConnInfo) (w : World) :
    ((trace log).1.GotConn connInfo).run w =
      ((), { w with
              ticks := w.ticks + 1
              log := w.log ++ [⟨Level.Info, log.Data, [.str (w.clock w.ticks), .str "conn time"]⟩]
              d := { w.d with Connection := { Time := w.clock w.ticks } } }) :=
  rfl

/-- The hook `WroteHeaders`, run from a world. -/
theorem WroteHeaders_run (log : Entry) (w : World) :
    ((trace log).1.WroteHeaders).run w =
      ((), { w with
              ticks := w.ticks + 1
              log := w.log ++ [⟨Level.Info, log.Data,
                                [.str (w.clock w.ticks), .str "wrote all request headers"]⟩]
              d := { w.d with WroteAllRequestHeaders := { Time := w.clock w.ticks } } }) :=
  rfl

/-- The hook `WroteRequest`, run from a world. -/
theorem WroteRequest_run (log : Entry) (wr : WroteRequestInfo) (w : World) :
    ((trace log).1.WroteRequest wr).run w =
      ((), { w with
              ticks := w.ticks + 1
              log := w.log ++ [⟨Level.Info, log.Data, [.str (w.clock w.ticks), .str "wrote all request"]⟩]
              d := { w.d with WroteAllRequest := { Time := w.clock w.ticks } } }) :=
  rfl

/-- The hook `GotFirstResponseByte`, run from a world. -/
theorem GotFirstResponseByte_run (log : Entry) (w : World) :
    ((trace log).1.GotFirstResponseByte).run w =
      ((), { w with
              ticks := w.ticks + 1
              log := w.log ++ [⟨Level.Info, log.Data,
                                [.str (w.clock w.ticks), .str "first received response byte"]⟩]
              d := { w.d with FirstReceivedResponseByte := { Time := w.clock w.ticks } } }) :=
  rfl

/-- The record `trace` returns is `Debug{}`. -/
theorem trace_record (log : Entry) : (trace log).2 = {} :=
  rfl

/-- Running hooks one after the other: the first, then the rest from the world
it leaves. -/
theorem worldAfter_fireAll_cons (t : ClientTrace) (e : Event) (es : List Event) (w : World) :
    worldAfter (t.fireAll (e :: es)) w = worldAfter (t.fireAll es) (worldAfter (t.fire e) w) :=
  rfl

/-- Running no hook leaves the world as it is. -/
theorem worldAfter_fireAll_nil (t : ClientTrace) (w : World) :
    worldAfter (t.fireAll []) w = w :=
  rfl

/-- The record after a hook: what the hook writes at the reading of the clock. -/
theorem fire_d (log : Entry) (e : Event) (w : World) :
    (worldAfter ((trace log).1.fire e) w).d = e.write (w.clock w.ticks) w.d := by
  cases e <;> rfl

/-- A hook reads the clock once. -/
theorem fire_ticks (log : Entry) (e : Event) (w : World) :
    (worldAfter ((trace log).1.fire e) w).ticks = w.ticks + 1 := by
  cases e <;> rfl

/-- A hook makes one logging call, with the reading and its label. -/
theorem fire_log (log : Entry) (e : Event) (w : World) :
    (worldAfter ((trace log).1.fire e) w).log
      = w.log ++ [⟨Level.Info, log.Data, [.str (w.clock w.ticks), .str e.specLabel]⟩] := by
  cases e <;> rfl

/-- A hook leaves the readings to come as they are. -/
theorem fire_clock (log : Entry) (e : Event) (w : World) :
    (worldAfter ((trace log).1.fire e) w).clock = w.clock := by
  cases e <;> rfl

/-- A hook of another phase leaves the empty fields of a phase empty. -/
theorem fire_preserves_unset (log : Entry) (e : Event) (p : Phase) (w : World)
    (hp : e.phase ≠ p) (hu : p.unset w.d) : p.unset (worldAfter ((trace log).1.fire e) w).d := by
  cases e <;> cases p <;> first
    | exact absurd rfl hp
    | exact hu

/-- Hooks of other phases leave the empty fields of a phase empty. -/
theorem fireAll_preserves_unset (log : Entry) (p : Phase) (es : List Event) :
    ∀ w : World, (∀ e ∈ es, e.phase ≠ p) → p.unset w.d →
      p.unset (worldAfter ((trace log).1.fireAll es) w).d := by
  induction es with
  | nil => intro w _ hu; exact hu
  | cons e es ih =>
    intro w hp hu
    rw [worldAfter_fireAll_cons]
    exact ih _ (fun e' he' => hp e' (List.mem_cons_of_mem _ he'))
      (fire_preserves_unset log e p w (hp e (List.mem_cons_self _ _)) hu)

/-- The hooks only append to the log, lines at level Info on the entry of `trace`. -/
theorem fireAll_log (log : Entry) (es : List Event) :
    ∀ w : World, ∃ new : List LogEntry,
      (worldAfter ((trace log).1.fireAll es) w).log = w.log ++ new
      ∧ ∀ l ∈ new, l.level = Level.Info ∧ l.Data = log.Data := by
  induction es with
  | nil => intro w; exact ⟨[], by simp [worldAfter_fireAll_nil], by simp⟩
  | cons e es ih =>
    intro w
    obtain ⟨new, hnew, hall⟩ := ih (worldAfter ((trace log).1.fire e) w)
    refine ⟨⟨Level.Info, log.Data, [.str (w.clock w.ticks), .str e.specLabel]⟩ :: new, ?_, ?_⟩
    · rw [worldAfter_fireAll_cons, hnew, fire_log log e w]
      simp
    · intro l hl
      rcases List.mem_cons.mp hl with h | h
      · subst h; exact ⟨rfl, rfl⟩
      · exact hall l h

/-! ## The log and the run of `main` -/

/-- The reports of a log in two parts. -/
theorem reports_append (xs ys : List LogEntry) : reports (xs ++ ys) = reports xs ++ reports ys := by
  induction xs with
  | nil => rfl
  | cons x xs ih =>
    simp only [List.cons_append, reports]
    split <;> simp [ih]

/-- The Fatal lines of a log in two parts. -/
theorem fatals_append (xs ys : List LogEntry) : fatals (xs ++ ys) = fatals xs ++ fatals ys := by
  induction xs with
  | nil => rfl
  | cons x xs ih =>
    simp only [List.cons_append, fatals]
    split <;> simp [ih]

/-- Lines on an entry with fields are no reports. -/
theorem reports_of_tagged (new : List LogEntry) (h : ∀ l ∈ new, l.Data ≠ []) : reports new = [] := by
  induction new with
  | nil => rfl
  | cons x xs ih =>
    have hx := h x (List.mem_cons_self _ _)
    simp only [reports]
    rw [if_neg (fun hc => hx hc.2)]
    exact ih (fun l hl => h l (List.mem_cons_of_mem _ hl))

/-- Lines at level Info are no Fatal lines. -/
theorem fatals_of_info (new : List LogEntry) (h : ∀ l ∈ new, l.level = Level.Info) : fatals new = [] := by
  induction new with
  | nil => rfl
  | cons x xs ih =>
    have hx := h x (List.mem_cons_self _ _)
    simp only [fatals]
    rw [if_neg (by rw [hx]; decide)]
    exact ih (fun l hl => h l (List.mem_cons_of_mem _ hl))

/-- The run of `main` when `http.NewRequest` returns an error. -/
theorem main_run_newRequest_error (ipText : NetIP → Except String String) (env : Env) (w : World)
    (err : GoError) (h : env.newRequestErr = some err) :
    (main ipText env).run w
      = (1, { w with d := {}, log := w.log ++ [⟨Level.Fatal, [], [.err err]⟩] }) := by
  obtain ⟨nre, evs, de⟩ := env
  simp only at h
  subst h
  rfl

/-- The run of `main` when `client.Do` returns an error. -/
theorem main_run_do_error (ipText : NetIP → Except String String) (env : Env) (w : World)
    (err : GoError) (h : env.newRequestErr = none) (h2 : env.doErr = some err) :
    (main ipText env).run w
      = (1, { worldAfter ((trace (logrusNew.WithField "unit" "tracing")).1.fireAll env.doEvents)
                { w with d := {} } with
              log := (worldAfter ((trace (logrusNew.WithField "unit" "tracing")).1.fireAll env.doEvents)
                { w with d := {} }).log ++ [⟨Level.Fatal, [], [.err err]⟩] }) := by
  obtain ⟨nre, evs, de⟩ := env
  simp only at h h2
  subst h h2
  rfl

/-- The run of `main` when neither call returns an error. -/
theorem main_run_success (ipText : NetIP → Except String String) (env : Env) (w : World)
    (h : env.newRequestErr = none) (h2 : env.doErr = none) :
    (main ipText env).run w
      = (0, { worldAfter ((trace (logrusNew.WithField "unit" "tracing")).1.fireAll env.doEvents)
                { w with d := {} } with
              log := (worldAfter ((trace (logrusNew.WithField "unit" "tracing")).1.fireAll env.doEvents)
                { w with d := {} }).log ++ [⟨Level.Info, [], [.str (bytesToString (MarshalIndent ipText
                  (worldAfter ((trace (logrusNew.WithField "unit" "tracing")).1.fireAll env.doEvents)
                { w with d := {} }).d "" "    "))]⟩] }) := by
  obtain ⟨nre, evs, de⟩ := env
  simp only at h h2
  subst h h2
  rfl

/-! ## The encoding -/

/-- Addresses whose texts can be had encode, one element each. -/
theorem encodeAddrs_ok (ipText : NetIP → Except String String) (as : List IPAddr)
    (h : ∀ a ∈ as, ∃ s, ipText a.IP = .ok s) :
    ∃ items, encodeAddrs ipText as = .ok items ∧ items.length = as.length := by
  induction as with
  | nil => exact ⟨[], rfl, rfl⟩
  | cons a as ih =>
    obtain ⟨s, hs⟩ := h a (List.mem_cons_self _ _)
    obtain ⟨items, hitems, hlen⟩ := ih (fun b hb => h b (List.mem_cons_of_mem _ hb))
    refine ⟨.obj [("IP", .str s), ("Zone", .str a.Zone)] :: items, ?_, by simp [hlen]⟩
    simp only [encodeAddrs, IPAddr.toJSON, hs, hitems]
    rfl

/-- When the encoding succeeds, `json.MarshalIndent` returns its layout. -/
theorem MarshalIndent_ok (ipText : NetIP → Except String String) (d : Debug) (pfx indent : String)
    (j : JSON) (h : d.toJSON ipText = .ok j) :
    MarshalIndent ipText d pfx indent = .ok (render pfx indent 0 j) := by
  simp only [MarshalIndent, h]
  rfl

/-- The line break of `json.Indent` with no prefix and an indent of four spaces:
a newline and four spaces per nesting level. -/
theorem newline_four_spaces (k : Nat) :
    newline "" "    " k = "\n" ++ String.mk (List.replicate (4 * k) (Char.ofNat 32)) := by
  induction k with
  | zero => rfl
  | succ k ih =>
    have h : indentOf "    " (k + 1) = indentOf "    " k ++ "    " := rfl
    unfold newline at ih ⊢
    rw [h, ← String.append_assoc, ih]
    apply String.ext
    simp only [String.data_append, List.append_assoc]
    have h4 : 4 * (k + 1) = 4 * k + 4 := by ring
    rw [h4, List.replicate_add]
    rfl

/-! ## C1: the shape of the report -/

/-- C1, as amended: for every `Debug` record whose address texts and error
value `encoding/json` can encode, `json.MarshalIndent(debug, "", "    ")`
succeeds with a JSON object of exactly the six members `dns`, `dial`,
`connection`, `wrote_all_request_header`, `wrote_all_request`,
`first_received_response_byte`, in that order, each an object whose `start`,
`end` and `time` members are strings; `dns.host` is a string, `dns.address` is
`null` for the nil slice and else an array with one element per address,
`dns.error` is `null` for the nil error and else the encoding of the error;
the text has each member on a line of its own behind a line break followed by
four spaces per nesting level. -/
theorem report_shape (ipText : NetIP → Except String String) (d : Debug)
    (haddr : ∀ as, d.DNS.Address = some as → ∀ a ∈ as, ∃ s, ipText a.IP = .ok s)
    (herr : ∀ e, d.DNS.Error = some e → ∃ j, e.encoding = .ok j) :
    ∃ address error : JSON,
      (d.DNS.Address = none → address = .null)
      ∧ (∀ as, d.DNS.Address = some as → ∃ items, address = .arr items ∧ items.length = as.length)
      ∧ (d.DNS.Error = none → error = .null)
      ∧ (∀ e, d.DNS.Error = some e → e.encoding = .ok error)
      ∧ d.toJSON ipText = .ok (.obj [
          ("dns", .obj [("start", .str d.DNS.Start), ("end", .str d.DNS.End),
                        ("host", .str d.DNS.Host), ("address", address), ("error", error)]),
          ("dial", .obj [("start", .str d.Dial.Start), ("end", .str d.Dial.End)]),
          ("connection", .obj [("time", .str d.Connection.Time)]),
          ("wrote_all_request_header", .obj [("time", .str d.WroteAllRequestHeaders.Time)]),
          ("wrote_all_request", .obj [("time", .str d.WroteAllRequest.Time)]),
          ("first_received_response_byte", .obj [("time", .str d.FirstReceivedResponseByte.Time)])])
      ∧ MarshalIndent ipText d "" "    " = .ok (
          "\x7b"
          ++ newline "" "    " 1 ++ "\"dns\"" ++ ": " ++ "\x7b"
          ++ newline "" "    " 2 ++ "\"start\"" ++ ": " ++ quote d.DNS.Start ++ ","
          ++ newline "" "    " 2 ++ "\"end\"" ++ ": " ++ quote d.DNS.End ++ ","
          ++ newline "" "    " 2 ++ "\"host\"" ++ ": " ++ quote d.DNS.Host ++ ","
          ++ newline "" "    " 2 ++ "\"address\"" ++ ": " ++ render "" "    " 2 address ++ ","
          ++ newline "" "    " 2 ++ "\"error\"" ++ ": " ++ render "" "    " 2 error
          ++ newline "" "    " 1 ++ "\x7d" ++ ","
          ++ newline "" "    " 1 ++ "\"dial\"" ++ ": " ++ "\x7b"
          ++ newline "" "    " 2 ++ "\"start\"" ++ ": " ++ quote d.Dial.Start ++ ","
          ++ newline "" "    " 2 ++ "\"end\"" ++ ": " ++ quote d.Dial.End
          ++ newline "" "    " 1 ++ "\x7d" ++ ","
          ++ newline "" "    " 1 ++ "\"connection\"" ++ ": " ++ "\x7b"
          ++ newline "" "    " 2 ++ "\"time\"" ++ ": " ++ quote d.Connection.Time
          ++ newline "" "    " 1 ++ "\x7d" ++ ","
          ++ newline "" "    " 1 ++ "\"wrote_all_request_header\"" ++ ": " ++ "\x7b"
          ++ newline "" "    " 2 ++ "\"time\"" ++ ": " ++ quote d.WroteAllRequestHeaders.Time
          ++ newline "" "    " 1 ++ "\x7d" ++ ","
          ++ newline "" "    " 1 ++ "\"wrote_all_request\"" ++ ": " ++ "\x7b"
          ++ newline "" "    " 2 ++ "\"time\"" ++ ": " ++ quote d.WroteAllRequest.Time
          ++ newline "" "    " 1 ++ "\x7d" ++ ","
          ++ newline "" "    " 1 ++ "\"first_received_response_byte\"" ++ ": " ++ "\x7b"
          ++ newline "" "    " 2 ++ "\"time\"" ++ ": " ++ quote d.FirstReceivedResponseByte.Time
          ++ newline "" "    " 1 ++ "\x7d"
          ++ newline "" "    " 0 ++ "\x7d")
      ∧ newline "" "    " 0 = "\n" ∧ newline "" "    " 1 = "\n    "
      ∧ newline "" "    " 2 = "\n        " := by
  have hA : ∃ address, addressJSON ipText d.DNS.Address = .ok address
      ∧ (d.DNS.Address = none → address = .null)
      ∧ (∀ as, d.DNS.Address = some as → ∃ items, address = .arr items ∧ items.length = as.length) := by
    cases hcase : d.DNS.Address with
    | none =>
      refine ⟨.null, rfl, ?_, ?_⟩
      · intro _; rfl
      · intro as h; cases h
    | some as =>
      obtain ⟨items, hitems, hlen⟩ := encodeAddrs_ok ipText as (haddr as hcase)
      refine ⟨.arr items, ?_, ?_, ?_⟩
      · simp only [addressJSON, hitems]; rfl
      · intro h; cases h
      · intro as' h; cases h; exact ⟨items, rfl, hlen⟩
  have hE : ∃ error, errorJSON d.DNS.Error = .ok error
      ∧ (d.DNS.Error = none → error = .null)
      ∧ (∀ e, d.DNS.Error = some e → e.encoding = .ok error) := by
    cases hcase : d.DNS.Error with
    | none =>
      refine ⟨.null, rfl, ?_, ?_⟩
      · intro _; rfl
      · intro e h; cases h
    | some e =>
      obtain ⟨j, hj⟩ := herr e hcase
      refine ⟨j, hj, ?_, ?_⟩
      · intro h; cases h
      · intro e' h; cases h; exact hj
  obtain ⟨address, hja, ha1, ha2⟩ := hA
  obtain ⟨error, hje, he1, he2⟩ := hE
  have htree : d.toJSON ipText = .ok (.obj [
          ("dns", .obj [("start", .str d.DNS.Start), ("end", .str d.DNS.End),
                        ("host", .str d.DNS.Host), ("address", address), ("error", error)]),
          ("dial", .obj [("start", .str d.Dial.Start), ("end", .str d.Dial.End)]),
          ("connection", .obj [("time", .str d.Connection.Time)]),
          ("wrote_all_request_header", .obj [("time", .str d.WroteAllRequestHeaders.Time)]),
          ("wrote_all_request", .obj [("time", .str d.WroteAllRequest.Time)]),
          ("first_received_response_byte", .obj [("time", .str d.FirstReceivedResponseByte.Time)])]) := by
    simp only [Debug.toJSON, DNSRecord.toJSON, hja, hje]
    rfl
  have q1 : quote "dns" = "\"dns\"" := by decide
  have q2 : quote "start" = "\"start\"" := by decide
  have q3 : quote "end" = "\"end\"" := by decide
  have q4 : quote "host" = "\"host\"" := by decide
  have q5 : quote "address" = "\"address\"" := by decide
  have q6 : quote "error" = "\"error\"" := by decide
  have q7 : quote "dial" = "\"dial\"" := by decide
  have q8 : quote "connection" = "\"connection\"" := by decide
  have q9 : quote "time" = "\"time\"" := by decide
  have q10 : quote "wrote_all_request_header" = "\"wrote_all_request_header\"" := by decide
  have q11 : quote "wrote_all_request" = "\"wrote_all_request\"" := by decide
  have q12 : quote "first_received_response_byte" = "\"first_received_response_byte\"" := by decide
  have n0 : newline "" "    " 0 = "\n" := by decide
  have n1 : newline "" "    " 1 = "\n    " := by decide
  have n2 : newline "" "    " 2 = "\n        " := by decide
  refine ⟨address, error, ha1, ha2, he1, he2, htree, ?_, n0, n1, n2⟩
  rw [MarshalIndent_ok ipText d _ _ _ htree]
  refine congrArg Except.ok ?_
  simp only [render, renderMembers, q1, q2, q3, q4, q5, q6, q7, q8, q9, q10, q11, q12,
    String.append_assoc, String.append_empty]

/-- Witness of C1 as amended: a record with one resolved address and no
error. -/
theorem report_shape_witness :
    ∃ j : JSON, Debug.toJSON sampleIpText
        { DNS := { Host := "example.com", Address := some [⟨[93, 184, 216, 34], ""⟩] } } = .ok j
      ∧ j.keys = ["dns", "dial", "connection", "wrote_all_request_header", "wrote_all_request",
                  "first_received_response_byte"] := by
  obtain ⟨address, error, _, _, _, _, htree, _⟩ :=
    report_shape sampleIpText
      { DNS := { Host := "example.com", Address := some [⟨[93, 184, 216, 34], ""⟩] } }
      (fun _ _ _ _ => ⟨"93.184.216.34", rfl⟩) (fun e h => by simp at h)
  exact ⟨_, htree, rfl⟩

set_option maxRecDepth 100000

/-- Counterexample to C1 as stated: in the report of a successful run against a
literal address, where no DNS hook fires, `dns.address` is `null`, not a
list. -/
theorem report_address_null :
    bytesToString (MarshalIndent sampleIpText
        ((main sampleIpText literalAddressRun).run (World.start sampleClock)).2.d "" "    ")
      = "\x7b\n    \"dns\": \x7b\n        \"start\": \"\",\n        \"end\": \"\",\n        \"host\": \"\",\n        \"address\": null,\n        \"error\": null\n    \x7d,\n    \"dial\": \x7b\n        \"start\": \"2019-03-14 09:26:53.589793238 +0000 UTC\",\n        \"end\": \"2019-03-14 09:26:53.6 +0000 UTC\"\n    \x7d,\n    \"connection\": \x7b\n        \"time\": \"2019-03-14 09:26:53.600012 +0000 UTC\"\n    \x7d,\n    \"wrote_all_request_header\": \x7b\n        \"time\": \"2019-03-14 09:26:53.71 +0000 UTC\"\n    \x7d,\n    \"wrote_all_request\": \x7b\n        \"time\": \"2019-03-14 09:26:53.710001 +0000 UTC\"\n    \x7d,\n    \"first_received_response_byte\": \x7b\n        \"time\": \"2019-03-14 09:26:53.7101 +0000 UTC\"\n    \x7d\n\x7d"
    ∧ (((Debug.toJSON sampleIpText
          ((main sampleIpText literalAddressRun).run (World.start sampleClock)).2.d).toOption.bind
            (JSON.member "dns")).bind (JSON.member "address")).map JSON.isArr = some false := by
  constructor
  · decide
  · rfl

/-! ## C2: the report and the fatal path -/

/-- C2: `main` emits the report if and only if both `http.NewRequest` and
`client.Do` return no error. When `http.NewRequest` returns an error, `main`
logs that error at level Fatal, exits with status 1 and logs nothing else;
when `client.Do` returns an error, `main` logs that error at level Fatal after
the lines of the hooks, exits with status 1 and emits no report; when both
succeed, `main` exits with status 0 having logged no Fatal line and exactly one
report, as its last line: the string of what `json.MarshalIndent` returned for
the record as the hooks left it, which is the serialized record whenever the
encoding succeeds. -/
theorem report_iff_no_error (ipText : NetIP → Except String String) (env : Env)
    (clock : Nat → String) :
    ((env.newRequestErr = none ∧ env.doErr = none)
      ↔ reports ((main ipText env).run (World.start clock)).2.log ≠ [])
    ∧ (∀ err, env.newRequestErr = some err →
        ((main ipText env).run (World.start clock)).1 = 1
        ∧ ((main ipText env).run (World.start clock)).2.log = [⟨Level.Fatal, [], [.err err]⟩]
        ∧ fatals ((main ipText env).run (World.start clock)).2.log = [[.err err]]
        ∧ reports ((main ipText env).run (World.start clock)).2.log = [])
    ∧ (∀ err, env.newRequestErr = none → env.doErr = some err →
        ((main ipText env).run (World.start clock)).1 = 1
        ∧ ((main ipText env).run (World.start clock)).2.log.getLast?
            = some ⟨Level.Fatal, [], [.err err]⟩
        ∧ fatals ((main ipText env).run (World.start clock)).2.log = [[.err err]]
        ∧ reports ((main ipText env).run (World.start clock)).2.log = [])
    ∧ (env.newRequestErr = none → env.doErr = none →
        ((main ipText env).run (World.start clock)).1 = 0
        ∧ ((main ipText env).run (World.start clock)).2.d
            = (worldAfter ((trace (logrusNew.WithField "unit" "tracing")).1.fireAll env.doEvents)
                (World.start clock)).d
        ∧ reports ((main ipText env).run (World.start clock)).2.log
            = [[.str (bytesToString (MarshalIndent ipText
                  ((main ipText env).run (World.start clock)).2.d "" "    "))]]
        ∧ ((main ipText env).run (World.start clock)).2.log.getLast?
            = some ⟨Level.Info, [], [.str (bytesToString (MarshalIndent ipText
                  ((main ipText env).run (World.start clock)).2.d "" "    "))]⟩
        ∧ fatals ((main ipText env).run (World.start clock)).2.log = []
        ∧ ∀ text, MarshalIndent ipText
              ((main ipText env).run (World.start clock)).2.d "" "    " = .ok text →
            reports ((main ipText env).run (World.start clock)).2.log = [[.str text]]) := by
  obtain ⟨new, hnew, hall⟩ :=
    fireAll_log (logrusNew.WithField "unit" "tracing") env.doEvents (World.start clock)
  have hrep : reports new = [] :=
    reports_of_tagged new (fun l hl => by rw [(hall l hl).2]; simp [Entry.WithField, logrusNew])
  have hfat : fatals new = [] := fatals_of_info new (fun l hl => (hall l hl).1)
  have hstart : (World.start clock).log = [] := rfl
  rw [hstart, List.nil_append] at hnew
  have hfresh : ({ World.start clock with d := {} } : World) = World.start clock := rfl
  have hA : ∀ err, env.newRequestErr = some err →
      ((main ipText env).run (World.start clock)).1 = 1
        ∧ ((main ipText env).run (World.start clock)).2.log = [⟨Level.Fatal, [], [.err err]⟩]
        ∧ fatals ((main ipText env).run (World.start clock)).2.log = [[.err err]]
        ∧ reports ((main ipText env).run (World.start clock)).2.log = [] := by
    intro err h
    rw [main_run_newRequest_error ipText env _ err h]
    exact ⟨rfl, rfl, rfl, rfl⟩
  have hB : ∀ err, env.newRequestErr = none → env.doErr = some err →
      ((main ipText env).run (World.start clock)).1 = 1
        ∧ ((main ipText env).run (World.start clock)).2.log.getLast?
            = some ⟨Level.Fatal, [], [.err err]⟩
        ∧ fatals ((main ipText env).run (World.start clock)).2.log = [[.err err]]
        ∧ reports ((main ipText env).run (World.start clock)).2.log = [] := by
    intro err h h2
    rw [main_run_do_error ipText env _ err h h2, hfresh]
    refine ⟨rfl, ?_, ?_, ?_⟩
    · simp
    · show fatals (_ ++ _) = _
      rw [hnew, fatals_append, hfat]; rfl
    · show reports (_ ++ _) = _
      rw [hnew, reports_append, hrep]; rfl
  have hC : env.newRequestErr = none → env.doErr = none →
      ((main ipText env).run (World.start clock)).1 = 0
        ∧ ((main ipText env).run (World.start clock)).2.d
            = (worldAfter ((trace (logrusNew.WithField "unit" "tracing")).1.fireAll env.doEvents)
                (World.start clock)).d
        ∧ reports ((main ipText env).run (World.start clock)).2.log
            = [[.str (bytesToString (MarshalIndent ipText
                  ((main ipText env).run (World.start clock)).2.d "" "    "))]]
        ∧ ((main ipText env).run (World.start clock)).2.log.getLast?
            = some ⟨Level.Info, [], [.str (bytesToString (MarshalIndent ipText
                  ((main ipText env).run (World.start clock)).2.d "" "    "))]⟩
        ∧ fatals ((main ipText env).run (World.start clock)).2.log = []
        ∧ ∀ text, MarshalIndent ipText
              ((main ipText env).run (World.start clock)).2.d "" "    " = .ok text →
            reports ((main ipText env).run (World.start clock)).2.log = [[.str text]] := by
    intro h h2
    rw [main_run_success ipText env _ h h2, hfresh]
    have hreports : reports ((worldAfter
          ((trace (logrusNew.WithField "unit" "tracing")).1.fireAll env.doEvents)
            (World.start clock)).log ++ [⟨Level.Info, [], [.str (bytesToString (MarshalIndent ipText
              (worldAfter ((trace (logrusNew.WithField "unit" "tracing")).1.fireAll env.doEvents)
                (World.start clock)).d "" "    "))]⟩])
        = [[.str (bytesToString (MarshalIndent ipText
              (worldAfter ((trace (logrusNew.WithField "unit" "tracing")).1.fireAll env.doEvents)
                (World.start clock)).d "" "    "))]] := by
      rw [hnew, reports_append, hrep]; rfl
    refine ⟨rfl, rfl, hreports, ?_, ?_, ?_⟩
    · simp
    · show fatals (_ ++ _) = _
      rw [hnew, fatals_append, hfat]; rfl
    · intro text htext
      refine hreports.trans ?_
      show [[Arg.str (bytesToString (MarshalIndent ipText _ "" "    "))]] = _
      rw [htext]
      rfl
  refine ⟨?_, hA, hB, hC⟩
  constructor
  · rintro ⟨h, h2⟩
    rw [(hC h h2).2.2.1]
    simp
  · intro hne
    cases h : env.newRequestErr with
    | some err => exact absurd (hA err h).2.2.2 hne
    | none =>
      cases h2 : env.doErr with
      | some err => exact absurd (hB err h h2).2.2.2 hne
      | none => exact ⟨rfl, rfl⟩

/-- Witness of C2: the successful run against a literal address exits with
status 0. -/
theorem report_iff_no_error_witness :
    ((main sampleIpText literalAddressRun).run (World.start sampleClock)).1 = 0 :=
  ((report_iff_no_error sampleIpText literalAddressRun sampleClock).2.2.2 rfl rfl).1

/-! ## C3, C4: the DNS hooks -/

/-- C3: for every record, host, address list, error value and clock readings
`t1`, `t2`: after `DNSStart` fires with the host at `t1` and then `DNSDone`
fires with the addresses and the error at `t2`, the DNS sub-record is exactly
start `t1`, end `t2`, the host, the addresses, the error; `DNSDone` leaves the
start time and host of `DNSStart` as they were, and nothing else of the record
changes. -/
theorem dns_record_after_start_done (log : Entry) (w : World) (host : String)
    (addrs : Option (List IPAddr)) (err : Option GoError) (coalesced : Bool) (t1 t2 : String)
    (h1 : w.clock w.ticks = t1) (h2 : w.clock (w.ticks + 1) = t2) :
    (worldAfter ((trace log).1.DNSDone ⟨addrs, err, coalesced⟩)
        (worldAfter ((trace log).1.DNSStart ⟨host⟩) w)).d.DNS
      = { Start := t1, End := t2, Host := host, Address := addrs, Error := err }
    ∧ (worldAfter ((trace log).1.DNSDone ⟨addrs, err, coalesced⟩)
        (worldAfter ((trace log).1.DNSStart ⟨host⟩) w)).d
      = { w.d with DNS := { Start := t1, End := t2, Host := host, Address := addrs, Error := err } }
    ∧ (∀ v : World,
        (worldAfter ((trace log).1.DNSDone ⟨addrs, err, coalesced⟩) v).d
          = { v.d with DNS := { v.d.DNS with End := v.clock v.ticks, Address := addrs, Error := err } }
        ∧ (worldAfter ((trace log).1.DNSDone ⟨addrs, err, coalesced⟩) v).d.DNS.Start = v.d.DNS.Start
        ∧ (worldAfter ((trace log).1.DNSDone ⟨addrs, err, coalesced⟩) v).d.DNS.Host = v.d.DNS.Host) := by
  subst h1 h2
  exact ⟨rfl, rfl, fun _ => ⟨rfl, rfl, rfl⟩⟩

/-- Witness of C3: a lookup of `example.com` that fails at the second reading. -/
theorem dns_record_after_start_done_witness :
    (worldAfter ((trace ⟨[]⟩).1.DNSDone ⟨none, some ⟨"no such host", .ok .null⟩, false⟩)
        (worldAfter ((trace ⟨[]⟩).1.DNSStart ⟨"example.com"⟩)
          (World.start fun k => if k = 0 then "t1" else "t2"))).d.DNS
      = { Start := "t1", End := "t2", Host := "example.com", Address := none,
          Error := some ⟨"no such host", .ok .null⟩ } :=
  (dns_record_after_start_done ⟨[]⟩ (World.start fun k => if k = 0 then "t1" else "t2")
    "example.com" none (some ⟨"no such host", .ok .null⟩) false "t1" "t2" rfl rfl).1

/-- C4: starting from the fresh record returned by `trace`, after `DNSStart`
followed by `DNSDone` with a non-nil error and no further hook, `dns.error` is
non-nil and the timestamps of dial start and end, connection, headers written,
request written and first response byte are all empty. -/
theorem dns_failure_leaves_later_phases_unset (log : Entry) (w : World) (start : DNSStartInfo)
    (done : DNSDoneInfo) (hfresh : w.d = (trace log).2) (herr : done.Err ≠ none) :
    (worldAfter ((trace log).1.fireAll [.DNSStart start, .DNSDone done]) w).d.DNS.Error ≠ none
    ∧ (worldAfter ((trace log).1.fireAll [.DNSStart start, .DNSDone done]) w).d.Dial.Start = ""
    ∧ (worldAfter ((trace log).1.fireAll [.DNSStart start, .DNSDone done]) w).d.Dial.End = ""
    ∧ (worldAfter ((trace log).1.fireAll [.DNSStart start, .DNSDone done]) w).d.Connection.Time = ""
    ∧ (worldAfter ((trace log).1.fireAll [.DNSStart start, .DNSDone done]) w).d.WroteAllRequestHeaders.Time = ""
    ∧ (worldAfter ((trace log).1.fireAll [.DNSStart start, .DNSDone done]) w).d.WroteAllRequest.Time = ""
    ∧ (worldAfter ((trace log).1.fireAll [.DNSStart start, .DNSDone done]) w).d.FirstReceivedResponseByte.Time = "" := by
  have hrun : (worldAfter ((trace log).1.fireAll [.DNSStart start, .DNSDone done]) w).d
      = { w.d with DNS := { Start := w.clock w.ticks, End := w.clock (w.ticks + 1),
                            Host := start.Host, Address := done.Addrs, Error := done.Err } } := rfl
  rw [hrun, hfresh, trace_record]
  exact ⟨herr, rfl, rfl, rfl, rfl, rfl, rfl⟩

/-- Witness of C4: a failed lookup from the world at process start. -/
theorem dns_failure_leaves_later_phases_unset_witness :
    (worldAfter ((trace ⟨[]⟩).1.fireAll
        [.DNSStart ⟨"nohost.invalid"⟩, .DNSDone ⟨none, some ⟨"no such host", .ok .null⟩, false⟩])
        (World.start fun _ => "t")).d.Dial.Start = "" :=
  (dns_failure_leaves_later_phases_unset ⟨[]⟩ (World.start fun _ => "t") ⟨"nohost.invalid"⟩
    ⟨none, some ⟨"no such host", .ok .null⟩, false⟩ rfl (by simp)).2.1

/-! ## C5: the canonical order of the timestamps -/

/-- C5: if the eight hooks `DNSStart`, `DNSDone`, `ConnectStart`, `ConnectDone`,
`GotConn`, `WroteHeaders`, `WroteRequest`, `GotFirstResponseByte` each fire once
in that order, and the eight clock readings denote the instants `inst 0`, ...,
`inst 7` in non-decreasing order, then the timestamps of the final record denote
instants with dns.start <= dns.end <= dial.start <= dial.end <= connection.time
<= wrote_all_request_header.time <= wrote_all_request.time <=
first_received_response_byte.time. The start record is arbitrary, the fresh
record of `trace` included; `denote` is any reading of timestamp strings as
instants. -/
theorem timestamps_in_canonical_order {T : Type} [LE T] (log : Entry) (w : World)
    (denote : String → Option T) (inst : Nat → T)
    (start : DNSStartInfo) (done : DNSDoneInfo) (network addr network' addr' : String)
    (err : Option GoError) (connInfo : GotConnInfo) (wr : WroteRequestInfo)
    (hdenote : ∀ k, k < 8 → denote (w.clock (w.ticks + k)) = some (inst k))
    (hmono : ∀ k, k < 7 → inst k ≤ inst (k + 1)) :
    ∃ s1 s2 s3 s4 s5 s6 s7 s8 : T,
      denote (worldAfter ((trace log).1.fireAll
          [.DNSStart start, .DNSDone done, .ConnectStart network addr,
           .ConnectDone network' addr' err, .GotConn connInfo, .WroteHeaders, .WroteRequest wr,
           .GotFirstResponseByte]) w).d.DNS.Start = some s1
      ∧ denote (worldAfter ((trace log).1.fireAll
          [.DNSStart start, .DNSDone done, .ConnectStart network addr,
           .ConnectDone network' addr' err, .GotConn connInfo, .WroteHeaders, .WroteRequest wr,
           .GotFirstResponseByte]) w).d.DNS.End = some s2
      ∧ denote (worldAfter ((trace log).1.fireAll
          [.DNSStart start, .DNSDone done, .ConnectStart network addr,
           .ConnectDone network' addr' err, .GotConn connInfo, .WroteHeaders, .WroteRequest wr,
           .GotFirstResponseByte]) w).d.Dial.Start = some s3
      ∧ denote (worldAfter ((trace log).1.fireAll
          [.DNSStart start, .DNSDone done, .ConnectStart network addr,
           .ConnectDone network' addr' err, .GotConn connInfo, .WroteHeaders, .WroteRequest wr,
           .GotFirstResponseByte]) w).d.Dial.End = some s4
      ∧ denote (worldAfter ((trace log).1.fireAll
          [.DNSStart start, .DNSDone done, .ConnectStart network addr,
           .ConnectDone network' addr' err, .GotConn connInfo, .WroteHeaders, .WroteRequest wr,
           .GotFirstResponseByte]) w).d.Connection.Time = some s5
      ∧ denote (worldAfter ((trace log).1.fireAll
          [.DNSStart start, .DNSDone done, .ConnectStart network addr,
           .ConnectDone network' addr' err, .GotConn connInfo, .WroteHeaders, .WroteRequest wr,
           .GotFirstResponseByte]) w).d.WroteAllRequestHeaders.Time = some s6
      ∧ denote (worldAfter ((trace log).1.fireAll
          [.DNSStart start, .DNSDone done, .ConnectStart network addr,
           .ConnectDone network' addr' err, .GotConn connInfo, .WroteHeaders, .WroteRequest wr,
           .GotFirstResponseByte]) w).d.WroteAllRequest.Time = some s7
      ∧ denote (worldAfter ((trace log).1.fireAll
          [.DNSStart start, .DNSDone done, .ConnectStart network addr,
           .ConnectDone network' addr' err, .GotConn connInfo, .WroteHeaders, .WroteRequest wr,
           .GotFirstResponseByte]) w).d.FirstReceivedResponseByte.Time = some s8
      ∧ s1 ≤ s2 ∧ s2 ≤ s3 ∧ s3 ≤ s4 ∧ s4 ≤ s5 ∧ s5 ≤ s6 ∧ s6 ≤ s7 ∧ s7 ≤ s8 := by
  have hrun : (worldAfter ((trace log).1.fireAll
          [.DNSStart start, .DNSDone done, .ConnectStart network addr,
           .ConnectDone network' addr' err, .GotConn connInfo, .WroteHeaders, .WroteRequest wr,
           .GotFirstResponseByte]) w).d
        = { DNS := { Start := w.clock (w.ticks + 0), End := w.clock (w.ticks + 1), Host := start.Host,
                     Address := done.Addrs, Error := done.Err }
            Dial := { Start := w.clock (w.ticks + 2), End := w.clock (w.ticks + 3) }
            Connection := { Time := w.clock (w.ticks + 4) }
            WroteAllRequestHeaders := { Time := w.clock (w.ticks + 5) }
            WroteAllRequest := { Time := w.clock (w.ticks + 6) }
            FirstReceivedResponseByte := { Time := w.clock (w.ticks + 7) } } := by
    simp only [worldAfter_fireAll_cons, worldAfter_fireAll_nil, fire_d, fire_ticks, fire_clock,
      Event.write, Nat.add_assoc, Nat.add_zero, Nat.reduceAdd]
  rw [hrun]
  exact ⟨inst 0, inst 1, inst 2, inst 3, inst 4, inst 5, inst 6, inst 7,
    hdenote 0 (by decide), hdenote 1 (by decide), hdenote 2 (by decide), hdenote 3 (by decide),
    hdenote 4 (by decide), hdenote 5 (by decide), hdenote 6 (by decide), hdenote 7 (by decide),
    hmono 0 (by decide), hmono 1 (by decide), hmono 2 (by decide), hmono 3 (by decide),
    hmono 4 (by decide), hmono 5 (by decide), hmono 6 (by decide)⟩

/-- Witness of C5: the eight sample readings, read as instants by
`instantOfUTC`. -/
theorem timestamps_in_canonical_order_witness :
    ∃ s1 s2 : Nat,
      instantOfUTC (worldAfter ((trace ⟨[]⟩).1.fireAll
          [.DNSStart ⟨"example.com"⟩, .DNSDone ⟨some [⟨[93, 184, 216, 34], ""⟩], none, false⟩,
           .ConnectStart "tcp" "93.184.216.34:80", .ConnectDone "tcp" "93.184.216.34:80" none,
           .GotConn ⟨false, false, 0⟩, .WroteHeaders, .WroteRequest ⟨none⟩, .GotFirstResponseByte])
          (World.start sampleClock)).d.DNS.Start = some s1
      ∧ instantOfUTC (worldAfter ((trace ⟨[]⟩).1.fireAll
          [.DNSStart ⟨"example.com"⟩, .DNSDone ⟨some [⟨[93, 184, 216, 34], ""⟩], none, false⟩,
           .ConnectStart "tcp" "93.184.216.34:80", .ConnectDone "tcp" "93.184.216.34:80" none,
           .GotConn ⟨false, false, 0⟩, .WroteHeaders, .WroteRequest ⟨none⟩, .GotFirstResponseByte])
          (World.start sampleClock)).d.DNS.End = some s2
      ∧ s1 ≤ s2 := by
  obtain ⟨s1, s2, _, _, _, _, _, _, h1, h2, _, _, _, _, _, _, h12, _⟩ :=
    timestamps_in_canonical_order ⟨[]⟩ (World.start sampleClock) instantOfUTC sampleInstants
      ⟨"example.com"⟩ ⟨some [⟨[93, 184, 216, 34], ""⟩], none, false⟩
      "tcp" "93.184.216.34:80" "tcp" "93.184.216.34:80" none ⟨false, false, 0⟩ ⟨none⟩
      (by decide) (by decide)
  exact ⟨s1, s2, h1, h2, h12⟩

/-! ## C6: fields stay empty until their hook fires -/

/-- C6: the record returned by `trace` has every field empty (empty strings,
nil address list, nil error); for every finite sequence of hook invocations
applied to it and every phase, if no hook of that phase occurs in the sequence
then the fields of that phase are still empty afterwards; in particular, when
`DNSStart` and `DNSDone` never fire and the six other hooks fire in turn, all
DNS fields stay unset while each other timestamp holds the reading of its own
hook. -/
theorem fields_empty_until_event (log : Entry) :
    ((trace log).2.DNS.Start = "" ∧ (trace log).2.DNS.End = "" ∧ (trace log).2.DNS.Host = ""
      ∧ (trace log).2.DNS.Address = none ∧ (trace log).2.DNS.Error = none
      ∧ (trace log).2.Dial.Start = "" ∧ (trace log).2.Dial.End = ""
      ∧ (trace log).2.Connection.Time = "" ∧ (trace log).2.WroteAllRequestHeaders.Time = ""
      ∧ (trace log).2.WroteAllRequest.Time = "" ∧ (trace log).2.FirstReceivedResponseByte.Time = "")
    ∧ (∀ (es : List Event) (p : Phase) (w : World), w.d = (trace log).2 →
        (∀ e ∈ es, e.phase ≠ p) → p.unset (worldAfter ((trace log).1.fireAll es) w).d)
    ∧ (∀ (w : World) (network addr network' addr' : String) (err : Option GoError)
        (connInfo : GotConnInfo) (wr : WroteRequestInfo), w.d = (trace log).2 →
        (worldAfter ((trace log).1.fireAll
            [.ConnectStart network addr, .ConnectDone network' addr' err, .GotConn connInfo,
             .WroteHeaders, .WroteRequest wr, .GotFirstResponseByte]) w).d
          = { DNS := { Start := "", End := "", Host := "", Address := none, Error := none }
              Dial := { Start := w.clock w.ticks, End := w.clock (w.ticks + 1) }
              Connection := { Time := w.clock (w.ticks + 2) }
              WroteAllRequestHeaders := { Time := w.clock (w.ticks + 3) }
              WroteAllRequest := { Time := w.clock (w.ticks + 4) }
              FirstReceivedResponseByte := { Time := w.clock (w.ticks + 5) } }) := by
  refine ⟨⟨rfl, rfl, rfl, rfl, rfl, rfl, rfl, rfl, rfl, rfl, rfl⟩, ?_, ?_⟩
  · intro es p w hfresh hp
    refine fireAll_preserves_unset log p es w hp ?_
    rw [hfresh, trace_record]
    cases p <;> simp [Phase.unset]
  · intro w network addr network' addr' err connInfo wr hfresh
    have hrun : (worldAfter ((trace log).1.fireAll
            [.ConnectStart network addr, .ConnectDone network' addr' err, .GotConn connInfo,
             .WroteHeaders, .WroteRequest wr, .GotFirstResponseByte]) w).d
          = { w.d with
              Dial := { Start := w.clock w.ticks, End := w.clock (w.ticks + 1) }
              Connection := { Time := w.clock (w.ticks + 2) }
              WroteAllRequestHeaders := { Time := w.clock (w.ticks + 3) }
              WroteAllRequest := { Time := w.clock (w.ticks + 4) }
              FirstReceivedResponseByte := { Time := w.clock (w.ticks + 5) } } := rfl
    rw [hrun, hfresh, trace_record]

/-- Witness of C6: a run against a literal address, where only the dial and the
connection hooks fire, leaves the DNS fields and the three later timestamps
empty. -/
theorem fields_empty_until_event_witness :
    Phase.DNS.unset (worldAfter ((trace ⟨[]⟩).1.fireAll
        [.ConnectStart "tcp" "1.2.3.4:80", .ConnectDone "tcp" "1.2.3.4:80" none,
         .GotConn ⟨false, false, 0⟩]) (World.start fun _ => "t")).d :=
  (fields_empty_until_event ⟨[]⟩).2.1
    [.ConnectStart "tcp" "1.2.3.4:80", .ConnectDone "tcp" "1.2.3.4:80" none, .GotConn ⟨false, false, 0⟩]
    Phase.DNS (World.start fun _ => "t") rfl (by simp [Event.phase])

/-! ## C7: the transport policy -/

/-- C7: the client built by `client()` has a transport with connection reuse
disabled (`DisableKeepAlives` true), whose TLS configuration has certificate
verification disabled (`InsecureSkipVerify` true), and no timeout (`Timeout`
is the zero value). -/
theorem client_policy :
    ∃ tr cfg, client.Transport = some tr ∧ tr.DisableKeepAlives = true
      ∧ tr.TLSClientConfig = some cfg ∧ cfg.InsecureSkipVerify = true
      ∧ client.Timeout = 0 :=
  ⟨transport, tlsConfig, rfl, rfl, rfl, rfl, rfl⟩

/-! ## C8, C9, C10: what a hook does with its arguments, its clock reading and the log -/

/-- C8: `ConnectDone` records the dial end time and does not branch on its
arguments: for every world, clock reading `t` and any two triples of network,
address and error, the resulting worlds (record, log, clock position) are
equal, with `dial.end = t` and every other field of the record, `dial.start`
included, unchanged. -/
theorem connectDone_ignores_arguments (log : Entry) (w : World) (t : String)
    (network addr : String) (err : Option GoError)
    (network' addr' : String) (err' : Option GoError)
    (ht : w.clock w.ticks = t) :
    worldAfter ((trace log).1.ConnectDone network addr err) w
      = worldAfter ((trace log).1.ConnectDone network' addr' err') w
    ∧ (worldAfter ((trace log).1.ConnectDone network addr err) w).d.Dial.End = t
    ∧ (worldAfter ((trace log).1.ConnectDone network addr err) w).d
        = { w.d with Dial := { Start := w.d.Dial.Start, End := t } } := by
  subst ht
  exact ⟨rfl, rfl, rfl⟩

/-- Witness of C8: a successful and a refused dial at the same reading. -/
theorem connectDone_ignores_arguments_witness :
    worldAfter ((trace ⟨[]⟩).1.ConnectDone "tcp" "1.2.3.4:80" none) (World.start fun _ => "t")
      = worldAfter ((trace ⟨[]⟩).1.ConnectDone "tcp6" "[::1]:80" (some ⟨"connection refused", .ok .null⟩))
          (World.start fun _ => "t") :=
  (connectDone_ignores_arguments ⟨[]⟩ (World.start fun _ => "t") "t" "tcp" "1.2.3.4:80" none
    "tcp6" "[::1]:80" (some ⟨"connection refused", .ok .null⟩) rfl).1

/-- C9: for every record and every hook, firing the hook twice, at readings
`t1` then `t2` and with possibly different arguments, yields the same record
as firing it only the second time, at `t2`, on the original record; the
timestamp the hook writes is then `t2`. -/
theorem refire_overwrites (log : Entry) (w v : World) (e1 e2 : Event)
    (hsame : e1.hook = e2.hook) (hrecord : v.d = w.d)
    (hclock : v.clock v.ticks = w.clock (w.ticks + 1)) :
    (worldAfter ((trace log).1.fire e2) (worldAfter ((trace log).1.fire e1) w)).d
      = (worldAfter ((trace log).1.fire e2) v).d
    ∧ e2.specStamp (worldAfter ((trace log).1.fire e2) (worldAfter ((trace log).1.fire e1) w)).d
      = w.clock (w.ticks + 1) := by
  cases e1 <;> cases e2 <;> simp [Event.hook] at hsame <;>
    simp [worldAfter, ClientTrace.fire, DNSStart_run, DNSDone_run, ConnectStart_run,
      ConnectDone_run, GotConn_run, WroteHeaders_run, WroteRequest_run, GotFirstResponseByte_run,
      Event.specStamp, hrecord, hclock]

/-- Witness of C9: two lookups started in a row, against the second alone. -/
theorem refire_overwrites_witness :
    (worldAfter ((trace ⟨[]⟩).1.fire (.DNSStart ⟨"b.example"⟩))
        (worldAfter ((trace ⟨[]⟩).1.fire (.DNSStart ⟨"a.example"⟩))
          (World.start fun k => if k = 0 then "t1" else "t2"))).d
      = (worldAfter ((trace ⟨[]⟩).1.fire (.DNSStart ⟨"b.example"⟩)) (World.start fun _ => "t2")).d :=
  (refire_overwrites ⟨[]⟩ (World.start fun k => if k = 0 then "t1" else "t2")
    (World.start fun _ => "t2") (.DNSStart ⟨"a.example"⟩) (.DNSStart ⟨"b.example"⟩) rfl rfl rfl).1

/-- C10: each of the eight hooks reads the clock once and makes exactly one
logging call at level Info, on the entry given to `trace`, whose arguments are
the timestamp read followed by the phase label of the hook; the timestamp the
same invocation stores in the record is that same string. -/
theorem hook_logs_its_timestamp (log : Entry) (e : Event) (w : World) :
    (worldAfter ((trace log).1.fire e) w).ticks = w.ticks + 1
    ∧ (worldAfter ((trace log).1.fire e) w).log
        = w.log ++ [⟨Level.Info, log.Data, [.str (w.clock w.ticks), .str e.specLabel]⟩]
    ∧ e.specStamp (worldAfter ((trace log).1.fire e) w).d = w.clock w.ticks := by
  cases e <;> exact ⟨rfl, rfl, rfl⟩

end HttpReqTracing
